import Mathlib

/-!
Shallow embedding of `src/gitWorkflow.js` (the stash/save/restore engine of
lint-staged).  The git repository itself is an external collaborator of the
code (spec section 6 lists the consumed VCS command-line protocol), so each
git subcommand is modelled as an explicit transition on a small repository
state; the module's own functions (`generatePatch`, `gitStashSave`,
`gitStashPop`, `gitApplyPatch`, `cleanup`, `gitStash`, `updateStash`,
`gitPop`, ...) are transliterated from the source on top of those
primitives.  Every executed git command is also recorded in a trace so that
claims about command ordering can be stated.
-/

namespace GitWorkflow

/-- A tree object / directory snapshot: an association list from file path
to file content (the bytes of the file, modelled as a `String`). -/
abbrev Tree := List (String × String)

/-- Look a path up in a tree (first binding wins, as in a real tree there is
at most one entry per path). -/
def treeLookup (t : Tree) (p : String) : Option String :=
  (t.find? (fun e => e.1 == p)).map (fun e => e.2)

/-- The paths bound in a tree. -/
def treeKeys (t : Tree) : List String := t.map (fun e => e.1)

/-- The paths whose content differs between tree `t` and tree `w`: the model
of `git diff-index` run with index tree `t` against working tree `w`. -/
def treeDiff (t w : Tree) : List String :=
  ((treeKeys t ++ treeKeys w).dedup).filter
    (fun q => treeLookup t q != treeLookup w q)

/-- Standard merge-conflict marker content for one file. -/
def conflictMarked (ours theirs : String) : String :=
  "<<<<<<< ours\n" ++ ours ++ "\n=======\n" ++ theirs ++ "\n>>>>>>> theirs\n"

/-- Three-way merge of one file: `base` is the common ancestor content,
`cur` the current content, `theirs` the incoming content.  Unchanged sides
win; a genuine overlap produces conflict-marker content (spec section 4.4:
unresolved overlaps are left as standard merge-conflict markers). -/
def mergeContent (base cur theirs : Option String) : Option String :=
  if theirs = base then cur
  else if cur = base then theirs
  else if cur = theirs then cur
  else some (conflictMarked (cur.getD "") (theirs.getD ""))

/-- Three-way merge of whole trees, pointwise by path. -/
def mergeTree (base cur theirs : Tree) : Tree :=
  ((treeKeys base ++ treeKeys cur ++ treeKeys theirs).dedup).filterMap
    (fun q => (mergeContent (treeLookup base q) (treeLookup cur q)
      (treeLookup theirs q)).map (fun c => (q, c)))

/-- Bytes held in a file or on a command's stdout: either a binary patch
(`git diff-index --binary` output, identified by the two trees it connects)
or raw uninterpreted bytes. -/
inductive Bytes
  | patch (base target : Tree)
  | raw (s : String)
deriving DecidableEq

/-- A stash entry: the working tree and index it recorded, plus the HEAD
tree current when the entry was created (the merge base `git stash
pop`/`apply` uses). -/
structure Stash where
  work : Tree
  index : Tree
  base : Tree
deriving DecidableEq

/-- The git repository state: HEAD's tree, the index, the working tree, the
stash stack (most recent first), and whether the repository is the
degenerate empty one for which materializing the index prints no tree
(spec section 4.2). -/
structure Repo where
  head : Tree
  index : Tree
  work : Tree
  stashes : List Stash
  emptyRepo : Bool
deriving DecidableEq

/-- The git commands the module issues, as recorded in the trace.  Each
constructor corresponds to one argv shape from the source. -/
inductive Cmd
  | writeTree
  | diffIndexNameOnly (tree : Tree)
  | diffIndexExitCode (tree : Tree)
  | stashKeepIndex
  | stash
  | stashPop (n : Nat)
  | stashDrop
  | checkoutDashDash
  | apply (patchFile : String)
  | readTree (tree : Tree)
  | readTreeMergeStash
  | checkoutIndexAF
  | checkoutIndex
  | addAll
deriving DecidableEq

/-- The errors of the workflow: `CommandError` (non-zero subprocess exit,
carrying the command and its captured stdout), the `No patch found` error of
`gitStashPop`, the `Need 2 tree-ish to be set!` error of `gitPop`, and a
filesystem error (`fsp.unlink` / `fsp.writeFile` failure). -/
inductive GitError
  | commandError (cmd : Cmd) (stdout : Bytes)
  | noPatchError
  | ledgerStateError
  | fsError (p : String)
deriving DecidableEq

/-- The full state a run acts on: the repository, the filesystem region
holding patch files, the module-level variables of `gitWorkflow.js`
(`patchPath`, `workTree`, `trees`), a fault-injection knob making
`git write-tree` fail (to model `CommandError`s other than the expected
diff signal), and the trace of git commands executed so far. -/
structure St where
  git : Repo
  files : List (String × Bytes)
  patchPath : Option String
  workTree : Option Tree
  trees : List Tree
  failWriteTree : Option String
  trace : List Cmd
deriving DecidableEq

/-- Look a file up on the modelled filesystem. -/
def fileLookup (s : St) (p : String) : Option Bytes :=
  (s.files.find? (fun e => e.1 == p)).map (fun e => e.2)

/-- The computation monad: a state transformer that returns the outcome and
the state reached, also on error (a JavaScript exception leaves all state
mutations made before the throw in place). -/
def M (α : Type) : Type := St → Except GitError α × St

def M.pure (a : α) : M α := fun s => (Except.ok a, s)

def M.bind (x : M α) (f : α → M β) : M β := fun s =>
  match x s with
  | (Except.ok a, s1) => f a s1
  | (Except.error e, s1) => (Except.error e, s1)

instance : Monad M where
  pure := M.pure
  bind := M.bind

def M.throw (e : GitError) : M α := fun s => (Except.error e, s)

/-- JavaScript `try ... catch` / `.catch(...)` semantics: state mutated before the throw is
kept, as in JavaScript. -/
def M.tryCatch (x : M α) (h : GitError → M α) : M α := fun s =>
  match x s with
  | (Except.ok a, s1) => (Except.ok a, s1)
  | (Except.error e, s1) => h e s1

def M.get : M St := fun s => (Except.ok s, s)

def M.modify (f : St → St) : M Unit := fun s => (Except.ok (), f s)

/-- Record one executed git command in the trace. -/
def record (c : Cmd) (s : St) : St := { s with trace := s.trace ++ [c] }

/-! ### Models of the git commands the module invokes (spec section 6) -/

/-- Model of `git write-tree`: materializes the index as a tree object and prints its
id; prints nothing for the degenerate empty repository.  Subject to the
fault-injection knob so that unexpected `CommandError`s are representable. -/
def runWriteTree : M (Option Tree) := fun s =>
  let s1 := record Cmd.writeTree s
  match s1.failWriteTree with
  | some msg => (Except.error (GitError.commandError Cmd.writeTree (Bytes.raw msg)), s1)
  | none =>
    if s1.git.emptyRepo then (Except.ok none, s1)
    else (Except.ok (some s1.git.index), s1)

/-- Model of `git diff-index --name-only tree --`: lists the paths whose working-tree
content differs from `tree`. -/
def runDiffIndexNameOnly (t : Tree) : M (List String) := fun s =>
  let s1 := record (Cmd.diffIndexNameOnly t) s
  (Except.ok (treeDiff t s1.git.work), s1)

/-- Model of `git diff-index --exit-code --ignore-submodules --binary --no-color
--no-ext-diff tree --`: succeeds with empty output when there is no
difference and exits non-zero with the binary patch on stdout otherwise. -/
def runDiffIndexExitCode (t : Tree) : M Unit := fun s =>
  let s1 := record (Cmd.diffIndexExitCode t) s
  if treeDiff t s1.git.work = [] then (Except.ok (), s1)
  else (Except.error (GitError.commandError (Cmd.diffIndexExitCode t)
    (Bytes.patch t s1.git.work)), s1)

/-- Model of `git stash --keep-index`: pushes a stash entry recording the working
tree and index (with the current HEAD as merge base) and resets the working
tree to the staged content, keeping the index intact. -/
def runStashKeepIndex : M Unit := fun s =>
  let s1 := record Cmd.stashKeepIndex s
  (Except.ok (), { s1 with git := { s1.git with
    stashes := ⟨s1.git.work, s1.git.index, s1.git.head⟩ :: s1.git.stashes,
    work := s1.git.index } })

/-- Model of `git stash`: pushes a stash entry and resets both the working tree and
the index to HEAD. -/
def runStash : M Unit := fun s =>
  let s1 := record Cmd.stash s
  (Except.ok (), { s1 with git := { s1.git with
    stashes := ⟨s1.git.work, s1.git.index, s1.git.head⟩ :: s1.git.stashes,
    work := s1.git.head,
    index := s1.git.head } })

/-- Model of `git stash pop stash@ n`: three-way merges the recorded working tree of
entry `n` (against its recorded base) into the current working tree and
drops the entry; fails when the entry does not exist.  Overlaps are left as
conflict markers rather than failing, per spec section 4.4. -/
def runStashPop (n : Nat) : M Unit := fun s =>
  let s1 := record (Cmd.stashPop n) s
  match s1.git.stashes[n]? with
  | none => (Except.error (GitError.commandError (Cmd.stashPop n)
      (Bytes.raw "no stash entry")), s1)
  | some e => (Except.ok (), { s1 with git := { s1.git with
      work := mergeTree e.base s1.git.work e.work,
      stashes := s1.git.stashes.eraseIdx n } })

/-- Model of `git stash drop`: drops the most recent stash entry; fails when the
stash stack is empty. -/
def runStashDrop : M Unit := fun s =>
  let s1 := record Cmd.stashDrop s
  match s1.git.stashes with
  | [] => (Except.error (GitError.commandError Cmd.stashDrop
      (Bytes.raw "no stash entries")), s1)
  | _ :: rest => (Except.ok (), { s1 with git := { s1.git with stashes := rest } })

/-- Model of `git checkout -- .`: resets the working tree to the index. -/
def runCheckoutDashDash : M Unit := fun s =>
  let s1 := record Cmd.checkoutDashDash s
  (Except.ok (), { s1 with git := { s1.git with work := s1.git.index } })

/-- Model of `git apply --whitespace=nowarn patchFile`: reads the patch file and
applies it; applies cleanly exactly when the working tree matches the
patch's base tree, and exits non-zero otherwise. -/
def runApply (p : String) : M Unit := fun s =>
  let s1 := record (Cmd.apply p) s
  match fileLookup s1 p with
  | none => (Except.error (GitError.commandError (Cmd.apply p)
      (Bytes.raw "no such patch file")), s1)
  | some (Bytes.raw _) => (Except.error (GitError.commandError (Cmd.apply p)
      (Bytes.raw "corrupt patch")), s1)
  | some (Bytes.patch b t) =>
    if s1.git.work = b then
      (Except.ok (), { s1 with git := { s1.git with work := t } })
    else (Except.error (GitError.commandError (Cmd.apply p)
      (Bytes.raw "patch does not apply")), s1)

/-- Model of `git read-tree tree`: loads `tree` into the index. -/
def runReadTree (t : Tree) : M Unit := fun s =>
  let s1 := record (Cmd.readTree t) s
  (Except.ok (), { s1 with git := { s1.git with index := t } })

/-- Model of `git read-tree -m -i stash`: three-way merges the most recent stash
entry's recorded tree into the index (index only, the working tree is left
alone); fails when there is no stash entry. -/
def runReadTreeMergeStash : M Unit := fun s =>
  let s1 := record Cmd.readTreeMergeStash s
  match s1.git.stashes.head? with
  | none => (Except.error (GitError.commandError Cmd.readTreeMergeStash
      (Bytes.raw "no stash entry")), s1)
  | some e => (Except.ok (), { s1 with git := { s1.git with
      index := mergeTree e.base s1.git.index e.work } })

/-- Model of `git checkout-index -af`: forcibly syncs the working tree to the index. -/
def runCheckoutIndexAF : M Unit := fun s =>
  let s1 := record Cmd.checkoutIndexAF s
  (Except.ok (), { s1 with git := { s1.git with work := s1.git.index } })

/-- Model of `git checkout-index` with no `-a` and no paths: checks out no files at
all, so the state is unchanged. -/
def runCheckoutIndex : M Unit := fun s =>
  (Except.ok (), record Cmd.checkoutIndex s)

/-- Model of `git add .`: stages every working-tree change into the index. -/
def runAddAll : M Unit := fun s =>
  let s1 := record Cmd.addAll s
  (Except.ok (), { s1 with git := { s1.git with index := s1.git.work } })

/-- Model of `fsp.writeFile`: writes (or overwrites) a file. -/
def fsWriteFile (p : String) (b : Bytes) : M Unit := fun s =>
  (Except.ok (), { s with
    files := (p, b) :: s.files.filter (fun e => e.1 != p) })

/-- Model of `fsp.unlink`: deletes a file, failing when it does not exist. -/
def fsUnlink (p : String) : M Unit := fun s =>
  if (s.files.find? (fun e => e.1 == p)).isSome then
    (Except.ok (), { s with files := s.files.filter (fun e => e.1 != p) })
  else (Except.error (GitError.fsError p), s)

/-! ### The module's functions, transliterated from `src/gitWorkflow.js` -/

/-- Source function `getUnstagedFiles(options)`: `write-tree`, then `diff-index --name-only`
against the materialized tree; the empty-repository branch yields `[]`. -/
def getUnstagedFiles : M (List String) := do
  match (← runWriteTree) with
  | some tree => runDiffIndexNameOnly tree
  | none => pure []

/-- Source function `hasUnstagedFiles(options)`: whether `getUnstagedFiles` is non-empty. -/
def hasUnstagedFiles : M Bool := do
  let files ← getUnstagedFiles
  pure (decide (0 < files.length))

/-- The stdout carried by an error, as read by `res.stdout` in the catch
handler of `generatePatch`. -/
def errStdout : GitError → Bytes
  | GitError.commandError _ out => out
  | _ => Bytes.raw ""

/-- The fixed patch file name, `path.join(cwd, '.lint-staged.patch')`. -/
def patchFileName (cwd : String) : String := cwd ++ "/.lint-staged.patch"

/-- Source function `generatePatch(options)`: `write-tree`; when a tree is produced,
`diff-index --exit-code ... --binary` against it; the promise chain's final
`.catch` writes the rejection's stdout to `cwd/.lint-staged.patch` and
resolves with that path, and the success path resolves with nothing. -/
def generatePatch (cwd : String) : M (Option String) :=
  M.tryCatch
    (do
      match (← runWriteTree) with
      | some tree =>
        runDiffIndexExitCode tree
        pure none
      | none => pure none)
    (fun e => do
      fsWriteFile (patchFileName cwd) (errStdout e)
      pure (some (patchFileName cwd)))

/-- Source function `gitApply(patch, options)`. -/
def gitApply (patch : String) : M Unit := runApply patch

/-- Source function `gitPopWithConflicts(options)`: stash the auto-fixes, pop the initial
stash (entry 1) on top, merge the auto-fix stash into the index. -/
def gitPopWithConflicts : M Unit := do
  runStash
  runStashPop 1
  runReadTreeMergeStash

/-- Source helper `writeTree(options)` (the helper returning the raw stdout). -/
def writeTreeOut : M Tree := do
  pure ((← runWriteTree).getD [])

/-- Source function `gitStash(options)` (the TreeLedger `begin`). -/
def gitStash : M Unit := do
  let t0 ← writeTreeOut
  M.modify (fun s => { s with trees := [t0] })
  runAddAll
  let w ← writeTreeOut
  M.modify (fun s => { s with workTree := some w })
  runReadTree t0
  runCheckoutIndexAF

/-- Source function `updateStash(options)` (the TreeLedger `advance`). -/
def updateStash : M Unit := do
  let t ← writeTreeOut
  M.modify (fun s => { s with trees := s.trees ++ [t] })

/-- Source function `gitPop(options)` (the TreeLedger `end`). -/
def gitPop : M Unit := do
  let s ← M.get
  match s.workTree, s.trees with
  | none, _ => M.throw GitError.ledgerStateError
  | some _, [] => M.throw GitError.ledgerStateError
  | some w, t0 :: rest =>
    runReadTree w
    runCheckoutIndexAF
    (match rest with
     | [] => runReadTree t0
     | t1 :: _ => runReadTree t1)
    runCheckoutIndex

/-- Source function `cleanup(options)`: `stash drop`, then `fsp.unlink(patchPath)`, then
clear `patchPath`. -/
def cleanup : M Unit := do
  runStashDrop
  let s ← M.get
  match s.patchPath with
  | none => M.throw (GitError.fsError "null")
  | some p => fsUnlink p
  M.modify (fun s => { s with patchPath := none })

/-- Source function `gitApplyPatch(patch, options)`: try `checkout -- .` then `apply`; on
any error run `gitPopWithConflicts`; finally return `cleanup()`. -/
def gitApplyPatch (patch : String) : M Unit := do
  M.tryCatch
    (do
      runCheckoutDashDash
      gitApply patch)
    (fun _ => gitPopWithConflicts)
  cleanup

/-- Source function `gitStashSave(options)`: when unstaged files exist, remember the path
`generatePatch` produced and run `stash --keep-index`; otherwise resolve
with nothing. -/
def gitStashSave (cwd : String) : M Unit := do
  if (← hasUnstagedFiles) then
    let pp ← generatePatch cwd
    M.modify (fun s => { s with patchPath := pp })
    runStashKeepIndex
  else pure ()

/-- Source function `gitStashPop(options)`: throw `No patch found` when no patch path is
remembered, else `gitApplyPatch(patchPath)`. -/
def gitStashPop : M Unit := do
  let s ← M.get
  match s.patchPath with
  | none => M.throw GitError.noPatchError
  | some p => gitApplyPatch p

/-- The unstaged-file list of a repository, as the module's
`getUnstagedFiles` computes it. -/
def unstagedFiles (r : Repo) : List String :=
  if r.emptyRepo then [] else treeDiff r.index r.work


/-! ### Concrete states and checkers used by witnesses and counterexamples -/

/-- The ledger tree `gitPop` loads into the index: the sole entry when the
ledger has exactly one entry, the second entry (index 1) otherwise. -/
def chosenTree : List Tree → Tree
  | [] => []
  | [t] => t
  | _ :: t1 :: _ => t1

/-- A concrete repository: one file `a.txt`, committed as v0, staged as v1,
edited unstaged to v2 (the example scenario of spec section 8). -/
def repoA : Repo :=
  { head := [("a.txt", "v0")], index := [("a.txt", "v1")],
    work := [("a.txt", "v2")], stashes := [], emptyRepo := false }

/-- The concrete starting state over `repoA`, with a clean stash stack and
filesystem and no remembered patch path. -/
def stA : St :=
  { git := repoA, files := [], patchPath := none, workTree := none,
    trees := [], failWriteTree := none, trace := [] }

/-- A concrete state with zero unstaged changes (working tree equals the
staged content). -/
def stClean : St :=
  { git := { repoA with work := repoA.index }, files := [], patchPath := none,
    workTree := none, trees := [], failWriteTree := none, trace := [] }

/-- The concrete mid-session state right before `gitStashPop` in the
conflicted scenario: `gitStashSave` stashed the original unstaged edit (v1
staged, v2 unstaged) and the hook then auto-fixed and staged v1f, so the
index no longer matches the captured patch base. -/
def stMid : St :=
  { git := { head := [("a.txt", "v0")], index := [("a.txt", "v1f")],
             work := [("a.txt", "v1f")],
             stashes := [⟨[("a.txt", "v2")], [("a.txt", "v1")], [("a.txt", "v0")]⟩],
             emptyRepo := false },
    files := [("/repo/.lint-staged.patch",
      Bytes.patch [("a.txt", "v1")] [("a.txt", "v2")])],
    patchPath := some "/repo/.lint-staged.patch", workTree := none, trees := [],
    failWriteTree := none, trace := [] }

/-- Whether the character list `l` starts with the pattern `pat`. -/
def startsWithChars : List Char → List Char → Bool
  | _, [] => true
  | [], _ :: _ => false
  | a :: as, b :: bs => a == b && startsWithChars as bs

/-- Whether the character list `l` contains the pattern `pat` anywhere. -/
def containsChars : List Char → List Char → Bool
  | [], pat => startsWithChars [] pat
  | a :: rest, pat => startsWithChars (a :: rest) pat || containsChars rest pat

/-- Whether any file of the tree contains a merge-conflict marker. -/
def hasMarker (t : Tree) : Bool :=
  t.any (fun e => containsChars e.2.data "<<<<<<<".data)

/-- A concrete state for the TreeLedger path: the working-tree reference W
is set and the ledger holds two distinct trees t0 and t1. -/
def stLedger : St :=
  { git := { head := [], index := [("a.txt", "x")], work := [("a.txt", "y")],
             stashes := [], emptyRepo := false },
    files := [], patchPath := none,
    workTree := some [("a.txt", "w")],
    trees := [[("a.txt", "t0")], [("a.txt", "t1")]],
    failWriteTree := none, trace := [] }

/-- The conflicted mid-session state with an empty stash stack, on which
the `stash drop` of `cleanup` fails. -/
def stC10 : St := { stMid with git := { stMid.git with stashes := [] } }
end GitWorkflow

deriving instance DecidableEq for Except

namespace GitWorkflow

/-! ### Basic lemmas about trees, merges and the filesystem -/

theorem treeLookup_cons (k c : String) (t : Tree) (p : String) :
    treeLookup ((k, c) :: t) p = if k = p then some c else treeLookup t p := by
  simp only [treeLookup, List.find?]
  by_cases h : k = p
  · simp [h]
  · have hb : (k == p) = false := by simpa using h
    simp [hb, h]

theorem treeLookup_eq_none_of_not_mem (t : Tree) (p : String)
    (h : p ∉ treeKeys t) : treeLookup t p = none := by
  induction t with
  | nil => rfl
  | cons e t ih =>
    simp only [treeKeys, List.map_cons, List.mem_cons, not_or] at h
    rw [show e = (e.1, e.2) from rfl, treeLookup_cons]
    rw [if_neg (fun hk => h.1 hk.symm)]
    exact ih (by simpa [treeKeys] using h.2)

theorem treeLookup_filterMap_keys (ks : List String) (f : String → Option String)
    (p : String) (hk : ks.Nodup) :
    treeLookup (ks.filterMap (fun q => (f q).map (fun c => (q, c)))) p
      = if p ∈ ks then f p else none := by
  induction ks with
  | nil => simp [treeLookup]
  | cons k ks ih =>
    obtain ⟨hk1, hk2⟩ := List.nodup_cons.mp hk
    by_cases hpk : p = k
    · subst hpk
      cases hfk : f p with
      | none =>
        simp only [List.filterMap_cons, hfk, Option.map_none']
        rw [ih hk2, if_neg hk1, if_pos (List.mem_cons_self p ks)]
      | some c =>
        simp only [List.filterMap_cons, hfk, Option.map_some']
        rw [treeLookup_cons, if_pos rfl, if_pos (List.mem_cons_self p ks)]
    · cases hfk : f k with
      | none =>
        simp only [List.filterMap_cons, hfk, Option.map_none']
        rw [ih hk2]
        simp [List.mem_cons, hpk]
      | some c =>
        simp only [List.filterMap_cons, hfk, Option.map_some']
        rw [treeLookup_cons, if_neg (fun h => hpk h.symm), ih hk2]
        simp [List.mem_cons, hpk]

theorem mergeContent_self_base (x y : Option String) :
    mergeContent x x y = y := by
  unfold mergeContent
  by_cases h : y = x <;> simp [h]

theorem treeLookup_mergeTree (b c t : Tree) (p : String) :
    treeLookup (mergeTree b c t) p
      = if p ∈ (treeKeys b ++ treeKeys c ++ treeKeys t).dedup
        then mergeContent (treeLookup b p) (treeLookup c p) (treeLookup t p)
        else none := by
  unfold mergeTree
  exact treeLookup_filterMap_keys _ _ _ (List.nodup_dedup _)

theorem treeLookup_mergeTree_cancel (b t : Tree) (p : String) :
    treeLookup (mergeTree b b t) p = treeLookup t p := by
  rw [treeLookup_mergeTree]
  split
  · exact mergeContent_self_base _ _
  · next h =>
    refine (treeLookup_eq_none_of_not_mem t p (fun hmem => h ?_)).symm
    rw [List.mem_dedup]
    simp [hmem]

theorem treeDiff_self (t : Tree) : treeDiff t t = [] := by
  simp [treeDiff]

theorem find?_filter_ne (l : List (String × Bytes)) (p : String) :
    (l.filter (fun e => e.1 != p)).find? (fun e => e.1 == p) = none := by
  rw [List.find?_eq_none]
  intro x hx
  have := (List.mem_filter.mp hx).2
  simpa using this

/-! ### Evaluation lemmas for the workflow functions -/

theorem bind_apply (x : M α) (f : α → M β) (s : St) :
    (x >>= f) s = match x s with
      | (Except.ok a, s1) => f a s1
      | (Except.error e, s1) => (Except.error e, s1) := rfl

theorem pure_apply (a : α) (s : St) : (pure a : M α) s = (Except.ok a, s) := rfl

theorem getUnstagedFiles_spec (s : St) (h1 : s.failWriteTree = none)
    (h2 : s.git.emptyRepo = false) :
    getUnstagedFiles s =
      (Except.ok (treeDiff s.git.index s.git.work),
       { s with trace := s.trace ++ [Cmd.writeTree, Cmd.diffIndexNameOnly s.git.index] }) := by
  simp [getUnstagedFiles, bind_apply, runWriteTree, runDiffIndexNameOnly, record, h1, h2]

theorem getUnstagedFiles_spec_empty (s : St) (h1 : s.failWriteTree = none)
    (h2 : s.git.emptyRepo = true) :
    getUnstagedFiles s =
      (Except.ok [], { s with trace := s.trace ++ [Cmd.writeTree] }) := by
  simp [getUnstagedFiles, bind_apply, runWriteTree, record, h1, h2, pure_apply]

theorem hasUnstagedFiles_spec (s : St) (h1 : s.failWriteTree = none)
    (h2 : s.git.emptyRepo = false) :
    hasUnstagedFiles s =
      (Except.ok (decide (0 < (treeDiff s.git.index s.git.work).length)),
       { s with trace := s.trace ++ [Cmd.writeTree, Cmd.diffIndexNameOnly s.git.index] }) := by
  simp [hasUnstagedFiles, bind_apply, getUnstagedFiles_spec s h1 h2, pure_apply]

theorem generatePatch_spec_diff (s : St) (cwd : String) (h1 : s.failWriteTree = none)
    (h2 : s.git.emptyRepo = false) (h3 : treeDiff s.git.index s.git.work ≠ []) :
    generatePatch cwd s =
      (Except.ok (some (patchFileName cwd)),
       { s with
         trace := s.trace ++ [Cmd.writeTree, Cmd.diffIndexExitCode s.git.index],
         files := (patchFileName cwd, Bytes.patch s.git.index s.git.work)
           :: s.files.filter (fun e => e.1 != patchFileName cwd) }) := by
  simp [generatePatch, M.tryCatch, bind_apply, runWriteTree, runDiffIndexExitCode,
    record, h1, h2, h3, fsWriteFile, errStdout, pure_apply]

theorem generatePatch_spec_nodiff (s : St) (cwd : String) (h1 : s.failWriteTree = none)
    (h2 : s.git.emptyRepo = false) (h3 : treeDiff s.git.index s.git.work = []) :
    generatePatch cwd s =
      (Except.ok none,
       { s with trace := s.trace ++ [Cmd.writeTree, Cmd.diffIndexExitCode s.git.index] }) := by
  simp [generatePatch, M.tryCatch, bind_apply, runWriteTree, runDiffIndexExitCode,
    record, h1, h2, h3, pure_apply]

theorem generatePatch_spec_empty (s : St) (cwd : String) (h1 : s.failWriteTree = none)
    (h2 : s.git.emptyRepo = true) :
    generatePatch cwd s =
      (Except.ok none, { s with trace := s.trace ++ [Cmd.writeTree] }) := by
  simp [generatePatch, M.tryCatch, bind_apply, runWriteTree, record, h1, h2, pure_apply]

theorem generatePatch_spec_fault (s : St) (cwd msg : String)
    (h : s.failWriteTree = some msg) :
    generatePatch cwd s =
      (Except.ok (some (patchFileName cwd)),
       { s with
         trace := s.trace ++ [Cmd.writeTree],
         files := (patchFileName cwd, Bytes.raw msg)
           :: s.files.filter (fun e => e.1 != patchFileName cwd) }) := by
  simp [generatePatch, M.tryCatch, bind_apply, runWriteTree, record, h,
    fsWriteFile, errStdout, pure_apply]

theorem gitStashSave_spec (s : St) (cwd : String) (h1 : s.failWriteTree = none)
    (h2 : s.git.emptyRepo = false) (h3 : treeDiff s.git.index s.git.work ≠ []) :
    gitStashSave cwd s =
      (Except.ok (),
       { s with
         git := { s.git with
           work := s.git.index,
           stashes := ⟨s.git.work, s.git.index, s.git.head⟩ :: s.git.stashes },
         patchPath := some (patchFileName cwd),
         files := (patchFileName cwd, Bytes.patch s.git.index s.git.work)
           :: s.files.filter (fun e => e.1 != patchFileName cwd),
         trace := s.trace ++ [Cmd.writeTree, Cmd.diffIndexNameOnly s.git.index,
           Cmd.writeTree, Cmd.diffIndexExitCode s.git.index, Cmd.stashKeepIndex] }) := by
  have hlen : (0 < (treeDiff s.git.index s.git.work).length) = True := by
    simp [List.length_pos, h3]
  simp only [gitStashSave, bind_apply, hasUnstagedFiles_spec s h1 h2, hlen, decide_True]
  simp only [if_true]
  rw [bind_apply]
  rw [generatePatch_spec_diff _ cwd (by simpa using h1) (by simpa using h2) (by simpa using h3)]
  simp [bind_apply, M.modify, runStashKeepIndex, record]

theorem gitStashSave_spec_noop (s : St) (cwd : String) (h1 : s.failWriteTree = none)
    (h0 : unstagedFiles s.git = []) :
    ∃ tr, gitStashSave cwd s = (Except.ok (), { s with trace := s.trace ++ tr }) := by
  by_cases h2 : s.git.emptyRepo
  · refine ⟨[Cmd.writeTree], ?_⟩
    have he : hasUnstagedFiles s
        = (Except.ok false, { s with trace := s.trace ++ [Cmd.writeTree] }) := by
      simp [hasUnstagedFiles, bind_apply, getUnstagedFiles_spec_empty s h1 h2, pure_apply]
    simp [gitStashSave, bind_apply, he, pure_apply]
  · refine ⟨[Cmd.writeTree, Cmd.diffIndexNameOnly s.git.index], ?_⟩
    have h3 : treeDiff s.git.index s.git.work = [] := by
      simpa [unstagedFiles, h2] using h0
    have he : hasUnstagedFiles s
        = (Except.ok false,
           { s with trace := s.trace ++ [Cmd.writeTree, Cmd.diffIndexNameOnly s.git.index] }) := by
      rw [hasUnstagedFiles_spec s h1 (by simpa using h2)]
      simp [h3]
    simp [gitStashSave, bind_apply, he, pure_apply]

theorem cleanup_spec_ok (s : St) (e : Stash) (rest : List Stash) (p : String) (b : Bytes)
    (hs : s.git.stashes = e :: rest) (hp : s.patchPath = some p)
    (hf : fileLookup s p = some b) :
    cleanup s =
      (Except.ok (),
       { s with
         git := { s.git with stashes := rest },
         files := s.files.filter (fun e => e.1 != p),
         patchPath := none,
         trace := s.trace ++ [Cmd.stashDrop] }) := by
  have hsome : ((s.files.filter (fun e => e.1 != p)).find? (fun e => e.1 == p)).isSome = false := by
    simp [find?_filter_ne]
  have hfind : (s.files.find? (fun e => e.1 == p)).isSome = true := by
    simp only [fileLookup] at hf
    cases hx : s.files.find? (fun e => e.1 == p) with
    | none => rw [hx] at hf; simp at hf
    | some v => simp
  simp [cleanup, bind_apply, runStashDrop, record, hs, M.get, hp, fsUnlink, hfind, M.modify]

theorem fileLookup_some_find (s : St) (p : String) (b : Bytes)
    (h : fileLookup s p = some b) :
    ∃ k, s.files.find? (fun e => e.1 == p) = some (k, b) := by
  simp only [fileLookup] at h
  cases hx : s.files.find? (fun e => e.1 == p) with
  | none => rw [hx] at h; simp at h
  | some v =>
    rw [hx] at h
    refine ⟨v.1, ?_⟩
    cases v
    simpa using h

theorem gitStashPop_clean_spec (s : St) (p : String) (b t : Tree)
    (e : Stash) (rest : List Stash)
    (hpp : s.patchPath = some p)
    (hfile : fileLookup s p = some (Bytes.patch b t))
    (hb : s.git.index = b)
    (hs : s.git.stashes = e :: rest) :
    gitStashPop s =
      (Except.ok (),
       { s with
         git := { s.git with work := t, stashes := rest },
         files := s.files.filter (fun e => e.1 != p),
         patchPath := none,
         trace := s.trace ++ [Cmd.checkoutDashDash, Cmd.apply p, Cmd.stashDrop] }) := by
  obtain ⟨k, hk⟩ := fileLookup_some_find s p _ hfile
  have hco : runCheckoutDashDash s
      = (Except.ok (), { s with
          git := { s.git with work := s.git.index },
          trace := s.trace ++ [Cmd.checkoutDashDash] }) := by
    simp [runCheckoutDashDash, record]
  have hap : runApply p { s with
        git := { s.git with work := s.git.index },
        trace := s.trace ++ [Cmd.checkoutDashDash] }
      = (Except.ok (), { s with
          git := { s.git with work := t },
          trace := s.trace ++ [Cmd.checkoutDashDash, Cmd.apply p] }) := by
    simp [runApply, record, fileLookup, hk, hb]
  have hcl := cleanup_spec_ok { s with
      git := { s.git with work := t },
      trace := s.trace ++ [Cmd.checkoutDashDash, Cmd.apply p] }
    e rest p (Bytes.patch b t) (by simpa using hs) (by simpa using hpp)
    (by simpa [fileLookup] using hfile)
  have h0 : gitStashPop s = gitApplyPatch p s := by
    simp [gitStashPop, bind_apply, M.get, hpp]
  rw [h0]
  simp only [gitApplyPatch, M.tryCatch, bind_apply, gitApply, hco]
  simp only [hap, hcl]
  simp

theorem gitStashPop_conflict_spec (s : St) (p : String) (w i : Tree)
    (hpp : s.patchPath = some p)
    (hfile : fileLookup s p = some (Bytes.patch i w))
    (hstash : s.git.stashes = [⟨w, i, s.git.head⟩])
    (hfail : s.git.index ≠ i) :
    gitStashPop s =
      (Except.ok (),
       { s with
         git := { s.git with
           work := mergeTree s.git.head s.git.head w,
           index := mergeTree s.git.head s.git.head s.git.index,
           stashes := [] },
         files := s.files.filter (fun e => e.1 != p),
         patchPath := none,
         trace := s.trace ++ [Cmd.checkoutDashDash, Cmd.apply p, Cmd.stash,
           Cmd.stashPop 1, Cmd.readTreeMergeStash, Cmd.stashDrop] }) := by
  obtain ⟨k, hk⟩ := fileLookup_some_find s p _ hfile
  have h0 : gitStashPop s = gitApplyPatch p s := by
    simp [gitStashPop, bind_apply, M.get, hpp]
  have hco : runCheckoutDashDash s
      = (Except.ok (), { s with
          git := { s.git with work := s.git.index },
          trace := s.trace ++ [Cmd.checkoutDashDash] }) := by
    simp [runCheckoutDashDash, record]
  have hap : runApply p { s with
        git := { s.git with work := s.git.index },
        trace := s.trace ++ [Cmd.checkoutDashDash] }
      = (Except.error (GitError.commandError (Cmd.apply p) (Bytes.raw "patch does not apply")),
         { s with
           git := { s.git with work := s.git.index },
           trace := s.trace ++ [Cmd.checkoutDashDash, Cmd.apply p] }) := by
    simp [runApply, record, fileLookup, hk, hfail]
  have hst : runStash { s with
        git := { s.git with work := s.git.index },
        trace := s.trace ++ [Cmd.checkoutDashDash, Cmd.apply p] }
      = (Except.ok (), { s with
          git := { s.git with
            work := s.git.head,
            index := s.git.head,
            stashes := ⟨s.git.index, s.git.index, s.git.head⟩ :: s.git.stashes },
          trace := s.trace ++ [Cmd.checkoutDashDash, Cmd.apply p, Cmd.stash] }) := by
    simp [runStash, record]
  have hpop : runStashPop 1 { s with
        git := { s.git with
          work := s.git.head,
          index := s.git.head,
          stashes := ⟨s.git.index, s.git.index, s.git.head⟩ :: s.git.stashes },
        trace := s.trace ++ [Cmd.checkoutDashDash, Cmd.apply p, Cmd.stash] }
      = (Except.ok (), { s with
          git := { s.git with
            work := mergeTree s.git.head s.git.head w,
            index := s.git.head,
            stashes := [⟨s.git.index, s.git.index, s.git.head⟩] },
          trace := s.trace ++ [Cmd.checkoutDashDash, Cmd.apply p, Cmd.stash,
            Cmd.stashPop 1] }) := by
    simp [runStashPop, record, hstash, List.eraseIdx]
  have hmi : runReadTreeMergeStash { s with
        git := { s.git with
          work := mergeTree s.git.head s.git.head w,
          index := s.git.head,
          stashes := [⟨s.git.index, s.git.index, s.git.head⟩] },
        trace := s.trace ++ [Cmd.checkoutDashDash, Cmd.apply p, Cmd.stash,
          Cmd.stashPop 1] }
      = (Except.ok (), { s with
          git := { s.git with
            work := mergeTree s.git.head s.git.head w,
            index := mergeTree s.git.head s.git.head s.git.index,
            stashes := [⟨s.git.index, s.git.index, s.git.head⟩] },
          trace := s.trace ++ [Cmd.checkoutDashDash, Cmd.apply p, Cmd.stash,
            Cmd.stashPop 1, Cmd.readTreeMergeStash] }) := by
    simp [runReadTreeMergeStash, record]
  have hcl := cleanup_spec_ok { s with
      git := { s.git with
        work := mergeTree s.git.head s.git.head w,
        index := mergeTree s.git.head s.git.head s.git.index,
        stashes := [⟨s.git.index, s.git.index, s.git.head⟩] },
      trace := s.trace ++ [Cmd.checkoutDashDash, Cmd.apply p, Cmd.stash,
        Cmd.stashPop 1, Cmd.readTreeMergeStash] }
    ⟨s.git.index, s.git.index, s.git.head⟩ [] p (Bytes.patch i w)
    (by simp) (by simpa using hpp) (by simpa [fileLookup] using hfile)
  rw [h0]
  simp only [gitApplyPatch, M.tryCatch, bind_apply, gitApply, hco]
  simp only [hap, gitPopWithConflicts, bind_apply, hst]
  simp only [hpop, hmi, hcl]
  simp

theorem bind_ok_elim (x : M α) (f : α → M β) (s s2 : St) (b : β)
    (h : (x >>= f) s = (Except.ok b, s2)) :
    ∃ a s1, x s = (Except.ok a, s1) ∧ f a s1 = (Except.ok b, s2) := by
  rw [bind_apply] at h
  rcases hx : x s with ⟨r, s1⟩
  rw [hx] at h
  cases r with
  | ok a => exact ⟨a, s1, rfl, h⟩
  | error e => simp at h

theorem tryCatch_ok_elim (x : M α) (hnd : GitError → M α) (s s2 : St) (a : α)
    (h : M.tryCatch x hnd s = (Except.ok a, s2)) :
    x s = (Except.ok a, s2)
    ∨ ∃ e s1, x s = (Except.error e, s1) ∧ hnd e s1 = (Except.ok a, s2) := by
  unfold M.tryCatch at h
  rcases hx : x s with ⟨r, s1⟩
  rw [hx] at h
  cases r with
  | ok a1 => exact Or.inl h
  | error e => exact Or.inr ⟨e, s1, rfl, h⟩

theorem runApply_inv (p : String) (s : St) :
    (runApply p s).2.patchPath = s.patchPath ∧ (runApply p s).2.files = s.files
    ∧ (runApply p s).2.git.stashes = s.git.stashes := by
  rcases hfl : s.files.find? (fun e => e.1 == p) with _ | v
  · simp [runApply, record, fileLookup, hfl]
  · rcases v with ⟨k, b⟩
    cases b with
    | raw m => simp [runApply, record, fileLookup, hfl]
    | patch bb tt =>
      by_cases hw : s.git.work = bb
      · simp [runApply, record, fileLookup, hfl, hw]
      · simp [runApply, record, fileLookup, hfl, hw]

theorem gitPopWithConflicts_inv (s : St) :
    (gitPopWithConflicts s).2.patchPath = s.patchPath
    ∧ (gitPopWithConflicts s).2.files = s.files
    ∧ (∀ u, (gitPopWithConflicts s).1 = Except.ok u →
        (gitPopWithConflicts s).2.git.stashes.length = s.git.stashes.length) := by
  cases hsh : s.git.stashes with
  | nil =>
    simp [gitPopWithConflicts, bind_apply, runStash, runStashPop, record, hsh]
  | cons e rest =>
    simp [gitPopWithConflicts, bind_apply, runStash, runStashPop,
      runReadTreeMergeStash, record, hsh, List.eraseIdx]

theorem cleanup_ok_general (s : St) (u : Unit) (s1 : St)
    (h : cleanup s = (Except.ok u, s1)) :
    s1.patchPath = none
    ∧ (∀ q, s.patchPath = some q → fileLookup s1 q = none)
    ∧ s1.git.stashes.length + 1 = s.git.stashes.length
    ∧ Cmd.stashDrop ∈ s1.trace := by
  cases hsh : s.git.stashes with
  | nil =>
    simp only [cleanup, bind_apply, runStashDrop, record, hsh] at h
    simp at h
  | cons e rest =>
    cases hpp : s.patchPath with
    | none =>
      simp only [cleanup, bind_apply, runStashDrop, record, hsh, M.get, hpp, M.throw] at h
      simp at h
    | some p =>
      by_cases hex : (s.files.find? (fun e => e.1 == p)).isSome = true
      · simp only [cleanup, bind_apply, runStashDrop, record, hsh, M.get, hpp,
          fsUnlink, hex, if_true, M.modify] at h
        simp only [Prod.mk.injEq, true_and] at h
        subst h
        refine ⟨rfl, ?_, ?_, ?_⟩
        · intro q hq
          injection hq with hq1
          subst hq1
          simp [fileLookup, find?_filter_ne]
        · simp
        · simp
      · simp only [cleanup, bind_apply, runStashDrop, record, hsh, M.get, hpp,
          fsUnlink, hex, M.throw] at h
        simp at h

theorem restore_attempt_inv (p : String) (s : St) :
    ((runCheckoutDashDash >>= fun _ => gitApply p) s).2.patchPath = s.patchPath
    ∧ ((runCheckoutDashDash >>= fun _ => gitApply p) s).2.files = s.files
    ∧ ((runCheckoutDashDash >>= fun _ => gitApply p) s).2.git.stashes = s.git.stashes := by
  rcases hfl : s.files.find? (fun e => e.1 == p) with _ | v
  · simp [bind_apply, runCheckoutDashDash, gitApply, runApply, record, fileLookup, hfl]
  · rcases v with ⟨k, b⟩
    cases b with
    | raw m =>
      simp [bind_apply, runCheckoutDashDash, gitApply, runApply, record, fileLookup, hfl]
    | patch bb tt =>
      by_cases hw : s.git.index = bb
      · simp [bind_apply, runCheckoutDashDash, gitApply, runApply, record, fileLookup, hfl, hw]
      · simp [bind_apply, runCheckoutDashDash, gitApply, runApply, record, fileLookup, hfl, hw]

/-- C5: after every successful `restore()` (`gitStashPop`), regardless of
whether the patch applied cleanly or conflict recovery ran, `cleanup()`
has executed: a stash entry has been dropped (the stash stack is one entry
shorter and `stash drop` is in the trace), the patch file is deleted, and
the remembered patch path is cleared, so no stash entries or patch files
leak. -/
theorem gitStashPop_cleanup_always (s : St) (p : String) (u : Unit) (s2 : St)
    (hpp : s.patchPath = some p) (hrun : gitStashPop s = (Except.ok u, s2)) :
    s2.patchPath = none ∧ fileLookup s2 p = none
    ∧ s2.git.stashes.length + 1 = s.git.stashes.length
    ∧ Cmd.stashDrop ∈ s2.trace := by
  have h0 : gitStashPop s = gitApplyPatch p s := by
    simp [gitStashPop, bind_apply, M.get, hpp]
  rw [h0] at hrun
  unfold gitApplyPatch at hrun
  obtain ⟨a, s1, htc, hcl⟩ := bind_ok_elim _ _ _ _ _ hrun
  have hinv : s1.patchPath = s.patchPath ∧ s1.files = s.files
      ∧ s1.git.stashes.length = s.git.stashes.length := by
    rcases tryCatch_ok_elim _ _ _ _ _ htc with hok | ⟨e, sm, herr, hh⟩
    · have h1 := restore_attempt_inv p s
      rw [hok] at h1
      exact ⟨h1.1, h1.2.1, by rw [h1.2.2]⟩
    · have h1 := restore_attempt_inv p s
      rw [herr] at h1
      have h2 := gitPopWithConflicts_inv sm
      rw [hh] at h2
      refine ⟨h2.1.trans h1.1, h2.2.1.trans h1.2.1, ?_⟩
      rw [h2.2.2 a rfl, h1.2.2]
  have h3 := cleanup_ok_general s1 a s2 hcl
  refine ⟨h3.1, ?_, ?_, h3.2.2.2⟩
  · exact h3.2.1 p (hinv.1.trans hpp)
  · rw [h3.2.2.1, hinv.2.2]

theorem gitPop_spec (s : St) (w : Tree) (hW : s.workTree = some w)
    (hT : s.trees ≠ []) :
    gitPop s =
      (Except.ok (),
       { s with
         git := { s.git with index := chosenTree s.trees, work := w },
         trace := s.trace ++ [Cmd.readTree w, Cmd.checkoutIndexAF,
           Cmd.readTree (chosenTree s.trees), Cmd.checkoutIndex] }) := by
  match hts : s.trees with
  | [] => exact absurd hts hT
  | [t0] =>
    simp [gitPop, bind_apply, M.get, hW, hts, runReadTree, runCheckoutIndexAF,
      runCheckoutIndex, record, chosenTree]
  | t0 :: t1 :: rest =>
    simp [gitPop, bind_apply, M.get, hW, hts, runReadTree, runCheckoutIndexAF,
      runCheckoutIndex, record, chosenTree]

/-- C1: for every repository state with unstaged changes (a non-empty
index/working-tree diff) and an initially empty stash stack, `save()`
(`gitStashSave`) followed immediately by `restore()` (`gitStashPop`) with
no intervening hook modification reproduces the original unstaged
working-tree content byte-for-byte, leaves the index unchanged, and the
`cleanup()` run at the end of the restore leaves no residual stash entry,
no patch file, and no remembered patch path. -/
theorem save_restore_round_trip (s : St) (cwd : String)
    (h1 : s.failWriteTree = none) (h2 : s.git.emptyRepo = false)
    (h3 : treeDiff s.git.index s.git.work ≠ []) (h4 : s.git.stashes = []) :
    ∃ s2, (gitStashSave cwd >>= fun _ => gitStashPop) s = (Except.ok (), s2)
      ∧ s2.git.work = s.git.work
      ∧ s2.git.index = s.git.index
      ∧ s2.git.stashes = []
      ∧ fileLookup s2 (patchFileName cwd) = none
      ∧ s2.patchPath = none := by
  have hsave := gitStashSave_spec s cwd h1 h2 h3
  have hpop := gitStashPop_clean_spec
    { s with
      git := { s.git with
        work := s.git.index,
        stashes := ⟨s.git.work, s.git.index, s.git.head⟩ :: s.git.stashes },
      patchPath := some (patchFileName cwd),
      files := (patchFileName cwd, Bytes.patch s.git.index s.git.work)
        :: s.files.filter (fun e => e.1 != patchFileName cwd),
      trace := s.trace ++ [Cmd.writeTree, Cmd.diffIndexNameOnly s.git.index,
        Cmd.writeTree, Cmd.diffIndexExitCode s.git.index, Cmd.stashKeepIndex] }
    (patchFileName cwd) s.git.index s.git.work
    ⟨s.git.work, s.git.index, s.git.head⟩ s.git.stashes
    (by simp) (by simp [fileLookup]) (by simp) (by simp)
  refine ⟨((gitStashSave cwd >>= fun _ => gitStashPop) s).2, ?_, ?_, ?_, ?_, ?_, ?_⟩ <;>
      simp only [bind_apply, hsave, hpop] <;>
      try simp [fileLookup, find?_filter_ne, h4]

/-- Witness for C1 at the concrete state `stA`. -/
theorem save_restore_round_trip_witness :
    ∃ s2, (gitStashSave "/repo" >>= fun _ => gitStashPop) stA = (Except.ok (), s2)
      ∧ s2.git.work = stA.git.work
      ∧ s2.git.index = stA.git.index
      ∧ s2.git.stashes = []
      ∧ fileLookup s2 (patchFileName "/repo") = none
      ∧ s2.patchPath = none :=
  save_restore_round_trip stA "/repo" rfl rfl (by decide) rfl

/-- C2 counterexample: in the conflicted scenario `stMid` (the hook staged
auto-fixes overlapping the captured unstaged edit, so the patch fails to
apply), `gitStashPop` performs the conflict recovery and does not throw —
but the final working tree is exactly the originally captured unstaged
content `v2` and contains no merge-conflict marker (nor does the index),
refuting the claim that the restore ends with merge-conflict markers. -/
theorem restore_conflict_no_markers_cex :
    (gitStashPop stMid).1 = Except.ok ()
    ∧ (gitStashPop stMid).2.trace
        = [Cmd.checkoutDashDash, Cmd.apply "/repo/.lint-staged.patch", Cmd.stash,
           Cmd.stashPop 1, Cmd.readTreeMergeStash, Cmd.stashDrop]
    ∧ (gitStashPop stMid).2.git.work = [("a.txt", "v2")]
    ∧ hasMarker (gitStashPop stMid).2.git.work = false
    ∧ hasMarker (gitStashPop stMid).2.git.index = false := by
  refine ⟨?_, ?_, ?_, ?_, ?_⟩ <;> decide

/-- C2 (amended): `restore()` first resets the working tree to the index
(`checkout -- .`), then attempts to reapply the captured patch; if the
patch fails to apply because the hook's staged auto-fixes changed the index
away from the patch base, it performs conflict recovery — stash the
hook-fixed state, pop the original stash on top (`stash pop` of entry 1),
three-way merge the hook-fix stash into the index via `read-tree -m -i` —
and does not throw; the recovery ends with the originally captured
unstaged content in the working tree and the hook-fixed tree in the index,
not with merge-conflict markers. -/
theorem restore_conflict_recovery_amended (s : St) (p : String) (w i : Tree)
    (hpp : s.patchPath = some p)
    (hfile : fileLookup s p = some (Bytes.patch i w))
    (hstash : s.git.stashes = [⟨w, i, s.git.head⟩])
    (hfail : s.git.index ≠ i) :
    ∃ s2, gitStashPop s = (Except.ok (), s2)
      ∧ s2.trace = s.trace ++ [Cmd.checkoutDashDash, Cmd.apply p, Cmd.stash,
          Cmd.stashPop 1, Cmd.readTreeMergeStash, Cmd.stashDrop]
      ∧ (∀ q, treeLookup s2.git.work q = treeLookup w q)
      ∧ (∀ q, treeLookup s2.git.index q = treeLookup s.git.index q)
      ∧ s2.git.stashes = []
      ∧ s2.patchPath = none
      ∧ fileLookup s2 p = none := by
  refine ⟨_, gitStashPop_conflict_spec s p w i hpp hfile hstash hfail,
    ?_, ?_, ?_, ?_, ?_, ?_⟩
  · simp
  · intro q
    simpa using treeLookup_mergeTree_cancel s.git.head w q
  · intro q
    simpa using treeLookup_mergeTree_cancel s.git.head s.git.index q
  · simp
  · simp
  · simp [fileLookup, find?_filter_ne]

/-- Witness for C2 (amended) at the concrete conflicted state `stMid`. -/
theorem restore_conflict_recovery_amended_witness :
    ∃ s2, gitStashPop stMid = (Except.ok (), s2)
      ∧ s2.trace = stMid.trace ++ [Cmd.checkoutDashDash,
          Cmd.apply "/repo/.lint-staged.patch", Cmd.stash,
          Cmd.stashPop 1, Cmd.readTreeMergeStash, Cmd.stashDrop]
      ∧ (∀ q, treeLookup s2.git.work q = treeLookup [("a.txt", "v2")] q)
      ∧ (∀ q, treeLookup s2.git.index q = treeLookup stMid.git.index q)
      ∧ s2.git.stashes = []
      ∧ s2.patchPath = none
      ∧ fileLookup s2 "/repo/.lint-staged.patch" = none :=
  restore_conflict_recovery_amended stMid "/repo/.lint-staged.patch"
    [("a.txt", "v2")] [("a.txt", "v1")] rfl rfl rfl (by decide)

/-- C3: for every repository with unstaged changes, `save()`
(`gitStashSave`) first captures and remembers a non-null patch path and
then stashes the working tree keeping the index intact (the
`stash --keep-index` command is traced last), so that afterward the working
tree exactly equals the materialized index content with no unstaged diff
remaining. -/
theorem save_captures_then_stashes (s : St) (cwd : String)
    (h1 : s.failWriteTree = none) (h2 : s.git.emptyRepo = false)
    (h3 : treeDiff s.git.index s.git.work ≠ []) :
    ∃ s1, gitStashSave cwd s = (Except.ok (), s1)
      ∧ s1.patchPath = some (patchFileName cwd)
      ∧ s1.trace = s.trace ++ [Cmd.writeTree, Cmd.diffIndexNameOnly s.git.index,
          Cmd.writeTree, Cmd.diffIndexExitCode s.git.index, Cmd.stashKeepIndex]
      ∧ s1.git.work = s.git.index
      ∧ s1.git.index = s.git.index
      ∧ treeDiff s1.git.index s1.git.work = []
      ∧ s1.git.stashes = ⟨s.git.work, s.git.index, s.git.head⟩ :: s.git.stashes := by
  refine ⟨_, gitStashSave_spec s cwd h1 h2 h3, ?_, ?_, ?_, ?_, ?_, ?_⟩ <;>
    simp [treeDiff_self]

/-- Witness for C3 at the concrete state `stA`. -/
theorem save_captures_then_stashes_witness :
    ∃ s1, gitStashSave "/repo" stA = (Except.ok (), s1)
      ∧ s1.patchPath = some (patchFileName "/repo")
      ∧ s1.trace = stA.trace ++ [Cmd.writeTree, Cmd.diffIndexNameOnly stA.git.index,
          Cmd.writeTree, Cmd.diffIndexExitCode stA.git.index, Cmd.stashKeepIndex]
      ∧ s1.git.work = stA.git.index
      ∧ s1.git.index = stA.git.index
      ∧ treeDiff s1.git.index s1.git.work = []
      ∧ s1.git.stashes = ⟨stA.git.work, stA.git.index, stA.git.head⟩ :: stA.git.stashes :=
  save_captures_then_stashes stA "/repo" rfl rfl (by decide)

/-- C4: for every repository with zero unstaged changes, `save()`
(`gitStashSave`) is a no-op: it stashes nothing, captures no patch, and
leaves the working tree, index, stash list, filesystem and remembered
patch path unchanged afterward. -/
theorem save_noop_when_clean (s : St) (cwd : String)
    (h1 : s.failWriteTree = none) (h0 : unstagedFiles s.git = []) :
    ∃ s1, gitStashSave cwd s = (Except.ok (), s1)
      ∧ s1.git = s.git
      ∧ s1.files = s.files
      ∧ s1.patchPath = s.patchPath
      ∧ s1.workTree = s.workTree
      ∧ s1.trees = s.trees := by
  obtain ⟨tr, htr⟩ := gitStashSave_spec_noop s cwd h1 h0
  exact ⟨_, htr, by simp, by simp, by simp, by simp, by simp⟩

/-- Witness for C4 at the concrete clean state `stClean`. -/
theorem save_noop_when_clean_witness :
    ∃ s1, gitStashSave "/repo" stClean = (Except.ok (), s1)
      ∧ s1.git = stClean.git
      ∧ s1.files = stClean.files
      ∧ s1.patchPath = stClean.patchPath
      ∧ s1.workTree = stClean.workTree
      ∧ s1.trees = stClean.trees :=
  save_noop_when_clean stClean "/repo" rfl (by decide)

/-- Witness for C5 at the concrete conflicted state `stMid`, where constraint
recovery ran before `cleanup`. -/
theorem gitStashPop_cleanup_always_witness :
    (gitStashPop stMid).2.patchPath = none
    ∧ fileLookup (gitStashPop stMid).2 "/repo/.lint-staged.patch" = none
    ∧ (gitStashPop stMid).2.git.stashes.length + 1 = stMid.git.stashes.length
    ∧ Cmd.stashDrop ∈ (gitStashPop stMid).2.trace :=
  gitStashPop_cleanup_always stMid "/repo/.lint-staged.patch" ()
    (gitStashPop stMid).2 rfl (by decide)

/-- C6 counterexample: a `CommandError` raised by `write-tree` (not the
expected diff signal) during patch capture is nevertheless caught by the
final `.catch` of `generatePatch` and converted into a successful
patch-captured result — the error's stdout is written to the patch file
and the path returned — instead of propagating to the caller as the claim
states. -/
theorem generatePatch_catchall_cex :
    (generatePatch "/repo" { stA with failWriteTree := some "boom" }).1
      = Except.ok (some "/repo/.lint-staged.patch")
    ∧ fileLookup (generatePatch "/repo" { stA with failWriteTree := some "boom" }).2
        "/repo/.lint-staged.patch" = some (Bytes.raw "boom") := by
  exact ⟨by decide, by decide⟩

/-- C6 (amended): a `CommandError` from the diff with a non-empty diff is
caught internally and converted into a successful patch-captured result
(the patch bytes are written to the patch file and its path returned); and
every other error raised during capture is likewise caught by the same
handler and converted into a patch-captured result, its stdout written to
the patch file, rather than propagating to the caller. -/
theorem generatePatch_error_conversion_amended :
    (∀ s cwd msg, s.failWriteTree = some msg →
      ∃ s1, generatePatch cwd s = (Except.ok (some (patchFileName cwd)), s1)
        ∧ fileLookup s1 (patchFileName cwd) = some (Bytes.raw msg))
    ∧ (∀ s cwd, s.failWriteTree = none → s.git.emptyRepo = false →
        treeDiff s.git.index s.git.work ≠ [] →
      ∃ s1, generatePatch cwd s = (Except.ok (some (patchFileName cwd)), s1)
        ∧ fileLookup s1 (patchFileName cwd)
            = some (Bytes.patch s.git.index s.git.work)) := by
  constructor
  · intro s cwd msg h
    refine ⟨_, generatePatch_spec_fault s cwd msg h, ?_⟩
    simp [fileLookup]
  · intro s cwd h1 h2 h3
    refine ⟨_, generatePatch_spec_diff s cwd h1 h2 h3, ?_⟩
    simp [fileLookup]

/-- Witness for C6 (amended) at concrete states: an injected `write-tree`
failure, and the state `stA` with a genuine unstaged diff. -/
theorem generatePatch_error_conversion_amended_witness :
    (∃ s1, generatePatch "/repo" { stA with failWriteTree := some "boom" }
        = (Except.ok (some (patchFileName "/repo")), s1)
      ∧ fileLookup s1 (patchFileName "/repo") = some (Bytes.raw "boom"))
    ∧ (∃ s1, generatePatch "/repo" stA
        = (Except.ok (some (patchFileName "/repo")), s1)
      ∧ fileLookup s1 (patchFileName "/repo")
          = some (Bytes.patch stA.git.index stA.git.work)) :=
  ⟨generatePatch_error_conversion_amended.1 { stA with failWriteTree := some "boom" }
      "/repo" "boom" rfl,
   generatePatch_error_conversion_amended.2 stA "/repo" rfl rfl (by decide)⟩

/-- C7: `restore()` (`gitStashPop`) called without a remembered patch path
fails with the no-patch error and performs no git commands at all — the
whole state, the trace included, is returned unchanged. -/
theorem pop_without_patch_noPatchError (s : St) (h : s.patchPath = none) :
    gitStashPop s = (Except.error GitError.noPatchError, s) := by
  simp [gitStashPop, bind_apply, M.get, h, M.throw]

/-- Witness for C7 at the concrete state `stA` (no remembered patch). -/
theorem pop_without_patch_noPatchError_witness :
    gitStashPop stA = (Except.error GitError.noPatchError, stA) :=
  pop_without_patch_noPatchError stA rfl

/-- C8: for every repository whose index/working-tree diff reports no
difference — including the empty repository, where index materialization
yields no tree — patch capture (`generatePatch`) is a no-op on the
filesystem and returns null; and when the diff reports differences it
writes the patch bytes verbatim to `cwd/.lint-staged.patch` and returns
that path. -/
theorem generatePatch_null_or_write :
    (∀ s cwd, s.failWriteTree = none → unstagedFiles s.git = [] →
      ∃ s1, generatePatch cwd s = (Except.ok none, s1)
        ∧ s1.files = s.files
        ∧ s1.git = s.git
        ∧ s1.patchPath = s.patchPath)
    ∧ (∀ s cwd, s.failWriteTree = none → s.git.emptyRepo = false →
        treeDiff s.git.index s.git.work ≠ [] →
      ∃ s1, generatePatch cwd s = (Except.ok (some (patchFileName cwd)), s1)
        ∧ fileLookup s1 (patchFileName cwd)
            = some (Bytes.patch s.git.index s.git.work)) := by
  constructor
  · intro s cwd h1 h0
    by_cases h2 : s.git.emptyRepo
    · exact ⟨_, generatePatch_spec_empty s cwd h1 h2, by simp, by simp, by simp⟩
    · have h3 : treeDiff s.git.index s.git.work = [] := by
        simpa [unstagedFiles, h2] using h0
      exact ⟨_, generatePatch_spec_nodiff s cwd h1 (by simpa using h2) h3,
        by simp, by simp, by simp⟩
  · intro s cwd h1 h2 h3
    refine ⟨_, generatePatch_spec_diff s cwd h1 h2 h3, ?_⟩
    simp [fileLookup]

/-- Witness for C8 at the concrete states `stClean` (no diff) and `stA`
(non-empty diff). -/
theorem generatePatch_null_or_write_witness :
    (∃ s1, generatePatch "/repo" stClean = (Except.ok none, s1)
      ∧ s1.files = stClean.files
      ∧ s1.git = stClean.git
      ∧ s1.patchPath = stClean.patchPath)
    ∧ (∃ s1, generatePatch "/repo" stA
        = (Except.ok (some (patchFileName "/repo")), s1)
      ∧ fileLookup s1 (patchFileName "/repo")
          = some (Bytes.patch stA.git.index stA.git.work)) :=
  ⟨generatePatch_null_or_write.1 stClean "/repo" rfl (by decide),
   generatePatch_null_or_write.2 stA "/repo" rfl rfl (by decide)⟩

/-- C9 counterexample: on a ledger with two entries t0 and t1, `gitPop`
loads t1 — the last entry, not the second-to-last t0 — into the index, and
the final plain `checkout-index` invocation syncs nothing, leaving the
working tree equal to the restored W rather than the loaded tree. -/
theorem gitPop_second_tree_cex :
    (gitPop stLedger).1 = Except.ok ()
    ∧ (gitPop stLedger).2.git.index = [("a.txt", "t1")]
    ∧ [("a.txt", "t1")] ≠ ([("a.txt", "t0")] : Tree)
    ∧ (gitPop stLedger).2.git.work = [("a.txt", "w")]
    ∧ [("a.txt", "w")] ≠ ([("a.txt", "t1")] : Tree) := by
  refine ⟨?_, ?_, ?_, ?_, ?_⟩ <;> decide

/-- C9 (amended): for every session where the working-tree reference W is
set and the ledger is non-empty, `end()` (`gitPop`) restores the working
tree from W, then loads the sole ledger entry into the index when the
ledger has exactly one entry and the second ledger entry (index 1)
otherwise, and finishes with a plain `checkout-index` invocation that
names no paths and so leaves the working tree as restored from W. -/
theorem gitPop_amended (s : St) (w : Tree) (hW : s.workTree = some w)
    (hT : s.trees ≠ []) :
    ∃ s2, gitPop s = (Except.ok (), s2)
      ∧ s2.trace = s.trace ++ [Cmd.readTree w, Cmd.checkoutIndexAF,
          Cmd.readTree (chosenTree s.trees), Cmd.checkoutIndex]
      ∧ s2.git.work = w
      ∧ s2.git.index = chosenTree s.trees := by
  refine ⟨_, gitPop_spec s w hW hT, ?_, ?_, ?_⟩ <;> simp

/-- Witness for C9 (amended) at the concrete ledger state `stLedger`. -/
theorem gitPop_amended_witness :
    ∃ s2, gitPop stLedger = (Except.ok (), s2)
      ∧ s2.trace = stLedger.trace ++ [Cmd.readTree [("a.txt", "w")],
          Cmd.checkoutIndexAF, Cmd.readTree (chosenTree stLedger.trees),
          Cmd.checkoutIndex]
      ∧ s2.git.work = [("a.txt", "w")]
      ∧ s2.git.index = chosenTree stLedger.trees :=
  gitPop_amended stLedger [("a.txt", "w")] rfl (by decide)

/-- C10: `cleanup()` is not atomic — it drops the stash entry before
touching the patch file, so when the `stash drop` command fails (here:
empty stash stack), the error propagates with the patch file still present
on disk and the remembered patch path still set, leaving a retry
possible. -/
theorem cleanup_drop_failure_preserves_patch (s : St) (p : String) (b : Bytes)
    (hs : s.git.stashes = []) (hp : s.patchPath = some p)
    (hf : fileLookup s p = some b) :
    cleanup s = (Except.error (GitError.commandError Cmd.stashDrop
        (Bytes.raw "no stash entries")),
      { s with trace := s.trace ++ [Cmd.stashDrop] })
    ∧ ({ s with trace := s.trace ++ [Cmd.stashDrop] } : St).patchPath = some p
    ∧ fileLookup { s with trace := s.trace ++ [Cmd.stashDrop] } p = some b := by
  refine ⟨?_, by simpa using hp, by simpa [fileLookup] using hf⟩
  simp [cleanup, bind_apply, runStashDrop, record, hs]

/-- Witness for C10 at the concrete state `stC10` (empty stash stack). -/
theorem cleanup_drop_failure_preserves_patch_witness :
    cleanup stC10 = (Except.error (GitError.commandError Cmd.stashDrop
        (Bytes.raw "no stash entries")),
      { stC10 with trace := stC10.trace ++ [Cmd.stashDrop] })
    ∧ ({ stC10 with trace := stC10.trace ++ [Cmd.stashDrop] } : St).patchPath
        = some "/repo/.lint-staged.patch"
    ∧ fileLookup { stC10 with trace := stC10.trace ++ [Cmd.stashDrop] }
        "/repo/.lint-staged.patch"
        = some (Bytes.patch [("a.txt", "v1")] [("a.txt", "v2")]) :=
  cleanup_drop_failure_preserves_patch stC10 "/repo/.lint-staged.patch"
    (Bytes.patch [("a.txt", "v1")] [("a.txt", "v2")]) rfl rfl rfl

end GitWorkflow
